import Mathlib

/-!
Shallow embedding of the 2048-scoreproof backend
(src/2048-scoreproof-backend/src/index.ts).

The service keeps two SQLite tables, modelled as lists of rows:
* `scores`  : `score INTEGER PRIMARY KEY, count INTEGER NOT NULL`
* `proofs`  : `proofId TEXT PRIMARY KEY, proof TEXT, score INTEGER NOT NULL,
               created_at DATETIME DEFAULT CURRENT_TIMESTAMP`

Three HTTP routes are embedded as a step function on the database state:
GET /scores, GET /proofs and POST /scores/proof.  The external verifier
`verify2048Proof` (together with `JSON.parse` of the uploaded file) is an
opaque oracle: it is modelled as a function from the uploaded file content
to `Except Unit VerifierResult`, where `Except.error` stands for a thrown
exception (invalid JSON, verifier failure) caught by the route's catch-all.
-/

namespace ScoreProof

/-- One row of the `scores` table (`ScoreCount` in the source). -/
structure ScoreRow where
  score : Int
  count : Int
deriving DecidableEq, Repr

/-- One row of the `proofs` table. -/
structure ProofRow where
  proofId : String
  proof : String
  score : Int
  createdAt : Nat
deriving DecidableEq, Repr

/-- The database: the two tables, each as a list of rows. -/
structure DB where
  scores : List ScoreRow
  proofs : List ProofRow
deriving DecidableEq, Repr

/-- A fresh database with both tables empty. -/
def emptyDB : DB := ⟨[], []⟩

/-- The `initialScores` constant of index.ts. -/
def initialScores : List ScoreRow :=
  [⟨131072, 0⟩, ⟨65536, 0⟩, ⟨32768, 0⟩, ⟨16384, 0⟩, ⟨8192, 0⟩,
   ⟨4096, 0⟩, ⟨2048, 0⟩, ⟨1024, 0⟩, ⟨512, 0⟩, ⟨256, 0⟩, ⟨128, 0⟩,
   ⟨64, 0⟩, ⟨32, 0⟩, ⟨16, 0⟩, ⟨8, 0⟩, ⟨4, 0⟩, ⟨2, 0⟩]

/-- `initDb` of index.ts: the CREATE TABLE / CREATE INDEX statements are
no-ops on the model; if `SELECT COUNT(*) FROM scores` is 0, the rows of
`initialScores` are inserted. -/
def initDb (db : DB) : DB :=
  if db.scores.length = 0 then { db with scores := db.scores ++ initialScores }
  else db

/-- A JavaScript number as returned by the verifier for the score:
`none` stands for `NaN`, `some n` for the integer `n`. -/
abbrev JsNumber := Option Int

/-- JavaScript loose equality `x == n` between a number and an integer
literal; `NaN == n` is false. -/
def jsLooseEqInt : JsNumber → Int → Bool
  | none, _ => false
  | some m, n => m == n

/-- JavaScript `isNaN`. -/
def jsIsNaN : JsNumber → Bool
  | none => true
  | some _ => false

/-- The pair `[proofId, parsedScore]` returned by `verify2048Proof`.
The empty string models a missing/empty (falsy) identifier. -/
structure VerifierResult where
  proofId : String
  score : JsNumber
deriving DecidableEq, Repr

/-- The guard `!proofId || parsedScore == -1 || isNaN(parsedScore)`
of the POST handler. -/
def invalidVerifier (vr : VerifierResult) : Bool :=
  vr.proofId == "" || jsLooseEqInt vr.score (-1) || jsIsNaN vr.score

/-- The environment of a request: `JSON.parse` of the uploaded file
followed by the external call `verify2048Proof`, as an opaque oracle.
`Except.error ()` models a thrown exception (e.g. the file is not valid
JSON, or the verifier throws), which the route's catch-all intercepts. -/
structure Env where
  verify : String → Except Unit VerifierResult

/-- An HTTP response of one of the three routes. -/
inductive Response where
  | scoresJson (rows : List ScoreRow)
  | proofsJson (rows : List ProofRow)
  | created (msg : String) (score : Int)
  | badRequest (msg : String)
  | serverError (msg : String)
deriving DecidableEq, Repr

/-- The HTTP status code of a response (`res.json` defaults to 200). -/
def Response.status : Response → Nat
  | .scoresJson _ => 200
  | .proofsJson _ => 200
  | .created _ _ => 201
  | .badRequest _ => 400
  | .serverError _ => 500

/-- A request to one of the three routes.  For POST /scores/proof,
`file` is the uploaded file's content (`none` when no file was uploaded)
and `now` is the wall-clock time used for the `created_at` default. -/
inductive Request where
  | getScores
  | getProofs
  | postProof (file : Option String) (now : Nat)

/-- `ORDER BY score DESC` comparison on `scores` rows. -/
def scoreDescLe (a b : ScoreRow) : Prop := b.score ≤ a.score

instance : DecidableRel scoreDescLe := fun a b =>
  inferInstanceAs (Decidable (b.score ≤ a.score))

/-- `ORDER BY created_at DESC` comparison on `proofs` rows. -/
def createdDescLe (a b : ProofRow) : Prop := b.createdAt ≤ a.createdAt

instance : DecidableRel createdDescLe := fun a b =>
  inferInstanceAs (Decidable (b.createdAt ≤ a.createdAt))

/-- Body of GET /scores: `SELECT score, count FROM scores ORDER BY score DESC`. -/
def getScoresBody (db : DB) : Except Unit (DB × Response) :=
  .ok (db, .scoresJson (List.insertionSort scoreDescLe db.scores))

/-- Body of GET /proofs:
`SELECT proofId, proof, score, created_at FROM proofs ORDER BY created_at DESC`. -/
def getProofsBody (db : DB) : Except Unit (DB × Response) :=
  .ok (db, .proofsJson (List.insertionSort createdDescLe db.proofs))

/-- `UPDATE scores SET count = count + 1 WHERE score = s`, on one row. -/
def bumpScore (s : Int) (r : ScoreRow) : ScoreRow :=
  if r.score = s then { r with count := r.count + 1 } else r

/-- Steps 4 and 5 of the POST handler, reached once the proof is accepted:
`INSERT INTO proofs (proofId, proof, score) VALUES (?, ?, ?)`, then
`SELECT score, count FROM scores WHERE score = ?` followed by either
`UPDATE scores SET count = count + 1 WHERE score = ?` or
`INSERT INTO scores (score, count) VALUES (?, 1)`. -/
def postAccept (db : DB) (content proofId : String) (parsedScore : Int) (now : Nat) : DB :=
  let db1 : DB :=
    { db with proofs := db.proofs ++ [⟨proofId, content, parsedScore, now⟩] }
  if (db1.scores.find? (fun r => r.score == parsedScore)).isSome then
    { db1 with scores := db1.scores.map (bumpScore parsedScore) }
  else
    { db1 with scores := db1.scores ++ [⟨parsedScore, 1⟩] }

/-- Body of POST /scores/proof (the code inside the `try`).  Follows
index.ts step by step: missing file check, parse + verify via the oracle
(a thrown exception is propagated to the catch-all), validity guard,
duplicate-proofId check, then the two table writes of `postAccept`. -/
def postProofBody (env : Env) (file : Option String) (now : Nat) (db : DB) :
    Except Unit (DB × Response) :=
  match file with
  | none => .ok (db, .badRequest "No proof file uploaded")
  | some content =>
    match env.verify content with
    | .error e => .error e
    | .ok vr =>
      if invalidVerifier vr then
        .ok (db, .badRequest "Invalid proof data")
      else
        -- `isNaN` was ruled out just above, so `vr.score = some (vr.score.getD 0)`
        let parsedScore : Int := vr.score.getD 0
        if (db.proofs.find? (fun r => r.proofId == vr.proofId)).isSome then
          .ok (db, .badRequest "Proof already submitted")
        else
          .ok (postAccept db content vr.proofId parsedScore now,
               .created "Proof verified and score updated" parsedScore)

/-- The generic error message of each route's catch-all. -/
def genericErrorMsg : Request → String
  | .getScores => "Failed to fetch scores"
  | .getProofs => "Failed to fetch proofs"
  | .postProof _ _ => "Failed to process proof"

/-- The body (inside the `try`) of the route matching the request. -/
def routeBody (env : Env) (req : Request) (db : DB) : Except Unit (DB × Response) :=
  match req with
  | .getScores => getScoresBody db
  | .getProofs => getProofsBody db
  | .postProof file now => postProofBody env file now db

/-- A route handler: the body wrapped in its catch-all, which turns any
thrown error into a status-500 response with the route's generic message. -/
def route (env : Env) (req : Request) (db : DB) : DB × Response :=
  match routeBody env req db with
  | .ok r => r
  | .error _ => (db, .serverError (genericErrorMsg req))

/-- An operation of the service: initialization or one handled request. -/
inductive Op where
  | init
  | request (env : Env) (req : Request)

/-- Effect of an operation on the database. -/
def applyOp (op : Op) (db : DB) : DB :=
  match op with
  | .init => initDb db
  | .request env req => (route env req db).1

/-- Process a sequence of requests (each with its own oracle). -/
def runRequests (steps : List (Env × Request)) (db : DB) : DB :=
  steps.foldl (fun d p => (route p.1 p.2 d).1) db

/-- The database state after initializing an empty database and then
processing a given sequence of requests. -/
def reachableDB (steps : List (Env × Request)) : DB :=
  runRequests steps (initDb emptyDB)

/-- First invariant component: each stored count equals the number of
`proofs` rows carrying that score. -/
def countMatches (db : DB) : Prop :=
  ∀ r ∈ db.scores,
    r.count = ((db.proofs.filter (fun p => p.score == r.score)).length : Int)

/-- Second invariant component: every `proofs` row's score has a row in
the `scores` table. -/
def scoreCovered (db : DB) : Prop :=
  ∀ p ∈ db.proofs, ∃ r ∈ db.scores, r.score = p.score

/-- The inductive invariant preserved by every request. -/
def Inv (db : DB) : Prop := countMatches db ∧ scoreCovered db

/-- Oracle that accepts every upload, returning proofId "p1" and score 2048. -/
def envAccept : Env := ⟨fun _ => .ok ⟨"p1", some 2048⟩⟩

/-- Oracle returning the sentinel invalid score -1 together with proofId "a". -/
def envNegOne : Env := ⟨fun _ => .ok ⟨"a", some (-1)⟩⟩

/-- Oracle that always throws (e.g. the uploaded file is not valid JSON). -/
def envThrow : Env := ⟨fun _ => .error ()⟩

/-- A database whose `proofs` table already holds a row for proofId "a". -/
def dbWithProofA : DB := ⟨[], [⟨"a", "x", 5, 0⟩]⟩

/-- Oracle returning a valid result whose proofId "a" duplicates `dbWithProofA`. -/
def envDupValid : Env := ⟨fun _ => .ok ⟨"a", some 5⟩⟩

/-- A three-row scores table, out of order, used to exercise GET /scores. -/
def dbThreeScores : DB := ⟨[⟨2, 0⟩, ⟨8, 1⟩, ⟨4, 0⟩], []⟩

instance : IsTotal ScoreRow scoreDescLe :=
  ⟨fun a b => le_total b.score a.score⟩

instance : IsTrans ScoreRow scoreDescLe :=
  ⟨fun _ _ _ h1 h2 => le_trans h2 h1⟩

theorem postAccept_proofs (db : DB) (content pid : String) (s : Int) (now : Nat) :
    (postAccept db content pid s now).proofs = db.proofs ++ [⟨pid, content, s, now⟩] := by
  simp only [postAccept]
  split <;> rfl

/-- Case analysis on the POST /scores/proof handler: either the database is
returned unchanged with a 400 response, or the catch-all fired with a 500,
or the submission was accepted and `postAccept` performed the writes. -/
theorem route_post_spec (env : Env) (file : Option String) (now : Nat) (db : DB) :
    (∃ msg, route env (.postProof file now) db = (db, .badRequest msg)) ∨
    route env (.postProof file now) db = (db, .serverError "Failed to process proof") ∨
    (∃ content vr s, file = some content ∧ env.verify content = .ok vr ∧
      invalidVerifier vr = false ∧ vr.score = some s ∧
      db.proofs.find? (fun r => r.proofId == vr.proofId) = none ∧
      route env (.postProof file now) db =
        (postAccept db content vr.proofId s now,
         .created "Proof verified and score updated" s)) := by
  cases file with
  | none => exact .inl ⟨"No proof file uploaded", rfl⟩
  | some content =>
    cases hv : env.verify content with
    | error e =>
      refine .inr (.inl ?_)
      simp [route, routeBody, postProofBody, hv, genericErrorMsg]
    | ok vr =>
      by_cases hinv : invalidVerifier vr
      · exact .inl ⟨"Invalid proof data", by simp [route, routeBody, postProofBody, hv, hinv]⟩
      · have hnan : jsIsNaN vr.score = false := by
          rcases Bool.or_eq_false_iff.mp (Bool.eq_false_iff.mpr hinv) with ⟨-, h2⟩
          exact h2
        cases hs : vr.score with
        | none => simp [jsIsNaN, hs] at hnan
        | some s =>
          by_cases hdup : (db.proofs.find? (fun r => r.proofId == vr.proofId)).isSome
          · exact .inl ⟨"Proof already submitted",
              by simp [route, routeBody, postProofBody, hv, hinv, hdup]⟩
          · refine .inr (.inr ⟨content, vr, s, rfl, hv, Bool.eq_false_iff.mpr hinv, hs,
              Option.not_isSome_iff_eq_none.mp hdup, ?_⟩)
            simp [route, routeBody, postProofBody, hv, hinv, hdup, hs]

theorem bumpScore_score (s : Int) (r : ScoreRow) : (bumpScore s r).score = r.score := by
  unfold bumpScore
  split <;> rfl

/-- The invariant is preserved by the writes of an accepted submission. -/
theorem inv_postAccept (db : DB) (content pid : String) (s : Int) (now : Nat)
    (h : Inv db) : Inv (postAccept db content pid s now) := by
  obtain ⟨hcount, hcover⟩ := h
  simp only [postAccept]
  split
  case isTrue hfound =>
    constructor
    · intro r' hr'
      simp only [List.mem_map] at hr'
      obtain ⟨r, hr, rfl⟩ := hr'
      by_cases hsc : r.score = s
      · have hb : bumpScore s r = ⟨r.score, r.count + 1⟩ := by
          unfold bumpScore; rw [if_pos hsc]
        rw [hb]
        simp only [List.filter_append]
        have : ((⟨pid, content, s, now⟩ : ProofRow).score == r.score) = true := by
          simp [hsc]
        simp [this, hcount r hr]
      · have hb : bumpScore s r = r := by
          unfold bumpScore; rw [if_neg hsc]
        rw [hb]
        simp only [List.filter_append]
        have : ((⟨pid, content, s, now⟩ : ProofRow).score == r.score) = false := by
          simp
          exact fun he => hsc he.symm
        simp [this, hcount r hr]
    · intro p hp
      simp only [List.mem_append, List.mem_singleton] at hp
      rcases hp with hp | rfl
      · obtain ⟨r, hr, hrs⟩ := hcover p hp
        exact ⟨bumpScore s r, List.mem_map_of_mem _ hr, by rw [bumpScore_score, hrs]⟩
      · obtain ⟨r, hr, hrs⟩ := List.find?_isSome.mp hfound
        refine ⟨bumpScore s r, List.mem_map_of_mem _ hr, ?_⟩
        rw [bumpScore_score]
        exact of_decide_eq_true hrs
  case isFalse hnf =>
    have hnone : ∀ r ∈ db.scores, r.score ≠ s := by
      intro r hr he
      refine hnf (List.find?_isSome.mpr ⟨r, hr, ?_⟩)
      simp [he]
    constructor
    · intro r' hr'
      simp only [List.mem_append, List.mem_singleton] at hr'
      rcases hr' with hr' | rfl
      · have hne : r'.score ≠ s := hnone r' hr'
        simp only [List.filter_append]
        have : ((⟨pid, content, s, now⟩ : ProofRow).score == r'.score) = false := by
          simp; intro he; exact absurd he.symm hne
        simp [this, hcount r' hr']
      · have hold : db.proofs.filter (fun p => p.score == s) = [] := by
          rw [List.filter_eq_nil_iff]
          intro p hp
          obtain ⟨r, hr, hrs⟩ := hcover p hp
          simp
          intro he
          exact hnone r hr (hrs.trans he)
        simp [List.filter_append, hold]
    · intro p hp
      simp only [List.mem_append, List.mem_singleton] at hp
      rcases hp with hp | rfl
      · obtain ⟨r, hr, hrs⟩ := hcover p hp
        exact ⟨r, List.mem_append_left _ hr, hrs⟩
      · exact ⟨⟨s, 1⟩, List.mem_append_right _ (List.mem_singleton.mpr rfl), rfl⟩

/-- The invariant is preserved by every handled request. -/
theorem inv_route (env : Env) (req : Request) (db : DB) (h : Inv db) :
    Inv (route env req db).1 := by
  cases req with
  | getScores => exact h
  | getProofs => exact h
  | postProof file now =>
    rcases route_post_spec env file now db with ⟨msg, hq⟩ | hq | ⟨c, vr, s, -, -, -, -, -, hq⟩
    · rw [hq]; exact h
    · rw [hq]; exact h
    · rw [hq]; exact inv_postAccept db c vr.proofId s now h

theorem inv_init_empty : Inv (initDb emptyDB) := by
  constructor
  · intro r hr
    fin_cases hr <;> rfl
  · intro p hp
    simp [initDb, emptyDB] at hp

theorem initDb_proofs (db : DB) : (initDb db).proofs = db.proofs := by
  unfold initDb
  split <;> rfl

/-- The invariant is preserved by any sequence of handled requests. -/
theorem inv_runRequests (steps : List (Env × Request)) (db : DB) (h : Inv db) :
    Inv (runRequests steps db) := by
  induction steps generalizing db with
  | nil => exact h
  | cons p rest ih =>
    show Inv (runRequests rest (route p.1 p.2 db).1)
    exact ih _ (inv_route p.1 p.2 db h)

/-- C1: for every state reachable by initializing the database and then
processing any sequence of requests, and for every score row stored in the
scores table, the stored count equals the number of rows of the proofs
table whose score is that row's score. -/
theorem count_invariant_reachable (steps : List (Env × Request)) (r : ScoreRow)
    (hr : r ∈ (reachableDB steps).scores) :
    r.count =
      (((reachableDB steps).proofs.filter (fun p => p.score == r.score)).length : Int) := by
  exact (inv_runRequests steps (initDb emptyDB) inv_init_empty).1 r hr

theorem count_invariant_reachable_witness :
    (⟨2048, 1⟩ : ScoreRow) ∈ (reachableDB [(envAccept, .postProof (some "c") 0)]).scores ∧
    (⟨2048, 1⟩ : ScoreRow).count =
      (((reachableDB [(envAccept, .postProof (some "c") 0)]).proofs.filter
          (fun p => p.score == (⟨2048, 1⟩ : ScoreRow).score)).length : Int) :=
  ⟨by decide,
   count_invariant_reachable [(envAccept, .postProof (some "c") 0)] ⟨2048, 1⟩ (by decide)⟩

/-- C2 counterexample: a submission whose verifier-returned proofId "a"
already exists in the proofs table but whose verifier-returned score is the
invalid sentinel -1 is rejected with message "Invalid proof data", not
"Proof already submitted", because the validity guard runs first. -/
theorem duplicate_message_counterexample :
    envNegOne.verify "c" = .ok ⟨"a", some (-1)⟩ ∧
    (dbWithProofA.proofs.find? (fun r => r.proofId == ("a" : String))).isSome = true ∧
    route envNegOne (.postProof (some "c") 0) dbWithProofA ≠
      (dbWithProofA, .badRequest "Proof already submitted") :=
  ⟨rfl, by decide, by decide⟩

/-- C2 (amended): for every POST /scores/proof submission whose verifier
result passes the validity guard and whose proofId already exists as a key
in the proofs table, the request is rejected with status 400 and message
"Proof already submitted", and neither table is modified. -/
theorem duplicate_rejected_unchanged (env : Env) (content : String) (now : Nat)
    (db : DB) (vr : VerifierResult) (hv : env.verify content = .ok vr)
    (hvalid : invalidVerifier vr = false)
    (hdup : (db.proofs.find? (fun r => r.proofId == vr.proofId)).isSome = true) :
    route env (.postProof (some content) now) db =
      (db, .badRequest "Proof already submitted") := by
  simp [route, routeBody, postProofBody, hv, hvalid, hdup]

theorem duplicate_rejected_unchanged_witness :
    envDupValid.verify "c" = .ok ⟨"a", some 5⟩ ∧
    invalidVerifier ⟨"a", some 5⟩ = false ∧
    (dbWithProofA.proofs.find?
      (fun r => r.proofId == (VerifierResult.mk "a" (some 5)).proofId)).isSome = true ∧
    route envDupValid (.postProof (some "c") 0) dbWithProofA =
      (dbWithProofA, .badRequest "Proof already submitted") :=
  ⟨rfl, by decide, by decide,
   duplicate_rejected_unchanged envDupValid "c" 0 dbWithProofA ⟨"a", some 5⟩ rfl
     (by decide) (by decide)⟩

/-- C3: if the verifier returns a missing/empty identifier, the sentinel
score -1, or a not-a-number score, the submission is rejected with status
400 and the database is unchanged. -/
theorem invalid_verifier_rejected (env : Env) (content : String) (now : Nat)
    (db : DB) (vr : VerifierResult) (hv : env.verify content = .ok vr)
    (hbad : vr.proofId = "" ∨ vr.score = some (-1) ∨ vr.score = none) :
    route env (.postProof (some content) now) db =
      (db, .badRequest "Invalid proof data") := by
  have hinv : invalidVerifier vr = true := by
    rcases hbad with h | h | h <;> simp [invalidVerifier, jsLooseEqInt, jsIsNaN, h]
  simp [route, routeBody, postProofBody, hv, hinv]

theorem invalid_verifier_rejected_witness :
    envNegOne.verify "c" = .ok ⟨"a", some (-1)⟩ ∧
    route envNegOne (.postProof (some "c") 0) emptyDB =
      (emptyDB, .badRequest "Invalid proof data") :=
  ⟨rfl,
   invalid_verifier_rejected envNegOne "c" 0 emptyDB ⟨"a", some (-1)⟩ rfl
     (.inr (.inl rfl))⟩

/-- C4: for every accepted submission with verifier score s, if some scores
row has score s then exactly the rows with score s have their count
incremented by 1 (all other rows unchanged); otherwise the row ⟨s, 1⟩ is
inserted. -/
theorem accepted_updates_scores (env : Env) (content : String) (now : Nat)
    (db : DB) (vr : VerifierResult) (s : Int) (hv : env.verify content = .ok vr)
    (hvalid : invalidVerifier vr = false) (hs : vr.score = some s)
    (hfresh : db.proofs.find? (fun r => r.proofId == vr.proofId) = none) :
    ((∃ r ∈ db.scores, r.score = s) →
      ((route env (.postProof (some content) now) db).1).scores =
        db.scores.map (bumpScore s)) ∧
    ((∀ r ∈ db.scores, r.score ≠ s) →
      ((route env (.postProof (some content) now) db).1).scores =
        db.scores ++ [⟨s, 1⟩]) := by
  have hdup : (db.proofs.find? (fun r => r.proofId == vr.proofId)).isSome = false := by
    rw [hfresh]; rfl
  have hroute : route env (.postProof (some content) now) db =
      (postAccept db content vr.proofId s now,
       .created "Proof verified and score updated" s) := by
    simp [route, routeBody, postProofBody, hv, hvalid, hdup, hs]
  rw [hroute]
  constructor
  · rintro ⟨r, hr, hrs⟩
    simp only [postAccept]
    rw [if_pos (List.find?_isSome.mpr ⟨r, hr, by simp [hrs]⟩)]
  · intro hall
    simp only [postAccept]
    rw [if_neg]
    intro hsome
    obtain ⟨r, hr, hrs⟩ := List.find?_isSome.mp hsome
    exact hall r hr (eq_of_beq hrs)

theorem accepted_updates_scores_witness :
    envAccept.verify "c" = .ok ⟨"p1", some 2048⟩ ∧
    invalidVerifier ⟨"p1", some 2048⟩ = false ∧
    (initDb emptyDB).proofs.find?
      (fun r => r.proofId == (VerifierResult.mk "p1" (some 2048)).proofId) = none ∧
    (((∃ r ∈ (initDb emptyDB).scores, r.score = 2048) →
        ((route envAccept (.postProof (some "c") 0) (initDb emptyDB)).1).scores =
          (initDb emptyDB).scores.map (bumpScore 2048)) ∧
     ((∀ r ∈ (initDb emptyDB).scores, r.score ≠ 2048) →
        ((route envAccept (.postProof (some "c") 0) (initDb emptyDB)).1).scores =
          (initDb emptyDB).scores ++ [⟨2048, 1⟩])) :=
  ⟨rfl, by decide, by decide,
   accepted_updates_scores envAccept "c" 0 (initDb emptyDB) ⟨"p1", some 2048⟩ 2048 rfl
     (by decide) rfl (by decide)⟩

/-- C5: initialization on an empty scores table seeds exactly the descending
ladder 131072 … 2 of power-of-two milestones, each with count 0, and touches
nothing else (the proofs table is unchanged). -/
theorem initDb_seeds_ladder (db : DB) (h : db.scores = []) :
    (initDb db).scores =
      [⟨131072, 0⟩, ⟨65536, 0⟩, ⟨32768, 0⟩, ⟨16384, 0⟩, ⟨8192, 0⟩, ⟨4096, 0⟩,
       ⟨2048, 0⟩, ⟨1024, 0⟩, ⟨512, 0⟩, ⟨256, 0⟩, ⟨128, 0⟩, ⟨64, 0⟩, ⟨32, 0⟩,
       ⟨16, 0⟩, ⟨8, 0⟩, ⟨4, 0⟩, ⟨2, 0⟩] ∧
    (initDb db).proofs = db.proofs := by
  refine ⟨?_, initDb_proofs db⟩
  simp [initDb, h, initialScores]

theorem initDb_seeds_ladder_witness :
    emptyDB.scores = [] ∧
    ((initDb emptyDB).scores =
      [⟨131072, 0⟩, ⟨65536, 0⟩, ⟨32768, 0⟩, ⟨16384, 0⟩, ⟨8192, 0⟩, ⟨4096, 0⟩,
       ⟨2048, 0⟩, ⟨1024, 0⟩, ⟨512, 0⟩, ⟨256, 0⟩, ⟨128, 0⟩, ⟨64, 0⟩, ⟨32, 0⟩,
       ⟨16, 0⟩, ⟨8, 0⟩, ⟨4, 0⟩, ⟨2, 0⟩] ∧
     (initDb emptyDB).proofs = emptyDB.proofs) :=
  ⟨rfl, initDb_seeds_ladder emptyDB rfl⟩

/-- C6: every operation of the service (initialization or any handled
request) either leaves the proofs table exactly as it was or appends exactly
one new row at its end; no existing proofs row is ever updated or deleted. -/
theorem proofs_rows_preserved (op : Op) (db : DB) :
    (applyOp op db).proofs = db.proofs ∨
    ∃ p, (applyOp op db).proofs = db.proofs ++ [p] := by
  cases op with
  | init => exact .inl (initDb_proofs db)
  | request env req =>
    cases req with
    | getScores => exact .inl rfl
    | getProofs => exact .inl rfl
    | postProof file now =>
      rcases route_post_spec env file now db with ⟨msg, hq⟩ | hq | ⟨c, vr, s, -, -, -, -, -, hq⟩
      · exact .inl (by simp [applyOp, hq])
      · exact .inl (by simp [applyOp, hq])
      · refine .inr ⟨⟨vr.proofId, c, s, now⟩, ?_⟩
        simp [applyOp, hq, postAccept_proofs]

/-- C7: GET /scores returns exactly the rows of the scores table, sorted in
strictly descending order of score (strictness uses the primary-key fact
that stored scores are pairwise distinct), and leaves the database
unchanged. -/
theorem getScores_rows_sorted (env : Env) (db : DB)
    (hnd : (db.scores.map ScoreRow.score).Nodup) :
    route env .getScores db =
      (db, .scoresJson (List.insertionSort scoreDescLe db.scores)) ∧
    (List.insertionSort scoreDescLe db.scores).Perm db.scores ∧
    (List.insertionSort scoreDescLe db.scores).Pairwise
      (fun a b => b.score < a.score) := by
  refine ⟨rfl, List.perm_insertionSort scoreDescLe db.scores, ?_⟩
  have hsorted : List.Pairwise scoreDescLe (List.insertionSort scoreDescLe db.scores) :=
    List.sorted_insertionSort scoreDescLe db.scores
  have hperm := List.perm_insertionSort scoreDescLe db.scores
  have hnd2 : (List.insertionSort scoreDescLe db.scores).Pairwise
      (fun a b => a.score ≠ b.score) := by
    have h1 : db.scores.Pairwise (fun a b => a.score ≠ b.score) :=
      List.pairwise_map.mp hnd
    exact (List.Perm.pairwise_iff (fun h => Ne.symm h) hperm).mpr h1
  exact (hsorted.and hnd2).imp (fun h => lt_of_le_of_ne h.1 (Ne.symm h.2))

theorem getScores_rows_sorted_witness :
    (dbThreeScores.scores.map ScoreRow.score).Nodup ∧
    (route envThrow .getScores dbThreeScores =
      (dbThreeScores, .scoresJson (List.insertionSort scoreDescLe dbThreeScores.scores)) ∧
     (List.insertionSort scoreDescLe dbThreeScores.scores).Perm dbThreeScores.scores ∧
     (List.insertionSort scoreDescLe dbThreeScores.scores).Pairwise
       (fun a b => b.score < a.score)) :=
  ⟨by decide, getScores_rows_sorted envThrow dbThreeScores (by decide)⟩

/-- C8: whenever the body of any of the three routes raises an error, the
catch-all responds with status 500 and the route's generic error message,
leaving the database unchanged. -/
theorem catch_all_returns_500 (env : Env) (req : Request) (db : DB)
    (h : routeBody env req db = .error ()) :
    route env req db = (db, .serverError (genericErrorMsg req)) ∧
    (route env req db).2.status = 500 := by
  have hq : route env req db = (db, .serverError (genericErrorMsg req)) := by
    unfold route
    rw [h]
  refine ⟨hq, ?_⟩
  rw [hq]
  rfl

theorem catch_all_returns_500_witness :
    routeBody envThrow (.postProof (some "c") 0) emptyDB = .error () ∧
    (route envThrow (.postProof (some "c") 0) emptyDB =
      (emptyDB, .serverError (genericErrorMsg (.postProof (some "c") 0))) ∧
     (route envThrow (.postProof (some "c") 0) emptyDB).2.status = 500) :=
  ⟨rfl, catch_all_returns_500 envThrow (.postProof (some "c") 0) emptyDB rfl⟩

/-- C9: whenever POST /scores/proof responds with status 400, the database
after the request equals the database before it. -/
theorem rejected_post_leaves_db_unchanged (env : Env) (file : Option String)
    (now : Nat) (db db' : DB) (resp : Response)
    (h : route env (.postProof file now) db = (db', resp))
    (h400 : resp.status = 400) : db' = db := by
  rcases route_post_spec env file now db with ⟨msg, hq⟩ | hq | ⟨c, vr, s, -, -, -, -, -, hq⟩
  · rw [h] at hq
    injection hq with h1 h2
  · rw [h] at hq
    injection hq with h1 h2
  · rw [h] at hq
    injection hq with h1 h2
    rw [h2] at h400
    simp [Response.status] at h400

theorem rejected_post_leaves_db_unchanged_witness :
    route envThrow (.postProof none 0) emptyDB =
      (emptyDB, .badRequest "No proof file uploaded") ∧
    (Response.badRequest "No proof file uploaded").status = 400 ∧
    emptyDB = emptyDB :=
  ⟨rfl, rfl,
   rejected_post_leaves_db_unchanged envThrow none 0 emptyDB emptyDB
     (.badRequest "No proof file uploaded") rfl rfl⟩

/-- C10: initialization is idempotent on a non-empty scores table: initDb
inserts nothing and modifies nothing, so re-running it never resets or
duplicates the seed ladder. -/
theorem initDb_nonempty_noop (db : DB) (h : db.scores ≠ []) : initDb db = db := by
  unfold initDb
  exact if_neg fun h0 => h (List.length_eq_zero.mp h0)

theorem initDb_nonempty_noop_witness :
    (⟨[⟨2, 0⟩], []⟩ : DB).scores ≠ [] ∧ initDb ⟨[⟨2, 0⟩], []⟩ = ⟨[⟨2, 0⟩], []⟩ :=
  ⟨by decide, initDb_nonempty_noop ⟨[⟨2, 0⟩], []⟩ (by decide)⟩

end ScoreProof
